import Mathlib

/-!
Verification of `git_summary.py` (FractalWire/git-tools).

The script is a git-history reporting tool.  Its logic is embedded here
shallowly:

* Python `str` values are modelled as `List Char` (`PyStr`); the Python
  string primitives used by the script (`split`, `strip`, `startswith`,
  `lower`, `join`, `in`, `int(...)`) are given explicit executable models
  below, faithful on the ASCII texts the script manipulates.
* Python exceptions are modelled with `Except`/`Option`: a function that can
  raise returns `Except`, and `.error` marks the raised exception.
* Python `float` arithmetic in the COCOMO block is modelled over `ℝ`
  (`Real.rpow` for `**`); a float division by zero raises
  `ZeroDivisionError` in Python, modelled by an `Option` result.
* The commit-frequency arithmetic is modelled over `ℚ` (exact values of the
  same field operations), with Python's `round(x, 1)` (round-half-to-even)
  modelled exactly.
* Python `dict`s keep insertion order and `set`s are used only for
  membership/size; both are modelled with insertion-ordered duplicate-free
  lists.
-/

/-- Python strings, modelled as their character lists. -/
abbrev PyStr := List Char

/-- Coerce a Lean string literal to the `PyStr` model. -/
def pyStr (s : String) : PyStr := s.toList

/-- The characters Python's `str.strip()` / `str.split()` treat as ASCII
whitespace (`" \t\n\r\x0b\x0c"`); the script only ever meets ASCII git
output, so the non-ASCII whitespace accepted by Python is out of scope. -/
def pyIsSpace (c : Char) : Bool :=
  c = ' ' || c = '\t' || c = '\n' || c = '\r' || c = '\x0b' || c = '\x0c'

/-- Python `str.strip()`: drop leading and trailing whitespace. -/
def pyStrip (s : PyStr) : PyStr :=
  ((s.dropWhile pyIsSpace).reverse.dropWhile pyIsSpace).reverse

/-- Fuel-driven worker for `splitOnCL`; the fuel is an upper bound on the
length of the text still to scan, so the fuel branch is never reached when
called through `splitOnCL`.  Mirrors Python `str.split(sep)` for a
non-empty separator. -/
def splitOnFuel (sep : PyStr) : Nat → PyStr → PyStr → List PyStr
  | _, [], acc => [acc.reverse]
  | 0, rest, acc => [acc.reverse ++ rest]
  | fuel + 1, c :: rest, acc =>
    if sep.isPrefixOf (c :: rest) then
      acc.reverse :: splitOnFuel sep fuel (List.drop (sep.length - 1) rest) []
    else
      splitOnFuel sep fuel rest (c :: acc)

/-- Python `s.split(sep)` for a non-empty separator `sep` (the script only
splits on `"<sep>"`, `"\t"`, `"\n"` and `"/"`, all non-empty). -/
def splitOnCL (sep s : PyStr) : List PyStr :=
  if sep = [] then [s] else splitOnFuel sep s.length s []

/-- Python `sub in s` substring membership, for a non-empty `sub`. -/
def pyContains (s sub : PyStr) : Bool :=
  2 ≤ (splitOnCL sub s).length

/-- Tail of Python's integer-literal grammar after the first digit: a
sequence of digits in which single underscores may separate digits. -/
def digitTail : List Char → Bool
  | [] => true
  | '_' :: c :: rest => c.isDigit && digitTail rest
  | ['_'] => false
  | c :: rest => c.isDigit && digitTail rest

/-- Non-empty ASCII digit string, with Python's underscore grouping. -/
def pyDigits : List Char → Bool
  | [] => false
  | c :: rest => c.isDigit && digitTail rest

/-- Numeric value of a digit string (underscores removed). -/
def pyDigitsVal (ds : List Char) : Nat :=
  (ds.filter (fun c => c ≠ '_')).foldl (fun n c => 10 * n + (c.toNat - 48)) 0

/-- Python `int(s)`: `some` the parsed value, `none` when `int` would raise
`ValueError`.  Strips whitespace, accepts one optional sign, then a
non-empty underscore-grouped ASCII digit string. -/
def pyInt? (s : PyStr) : Option Int :=
  match pyStrip s with
  | [] => none
  | '+' :: ds => if pyDigits ds then some (pyDigitsVal ds : Int) else none
  | '-' :: ds => if pyDigits ds then some (-(pyDigitsVal ds : Int)) else none
  | ds => if pyDigits ds then some (pyDigitsVal ds : Int) else none

/-- The delimiter token of the custom `--pretty` format string. -/
def SEP : PyStr := pyStr ("<sep>")

/-- A single tab, the `--numstat` field separator. -/
def TAB : PyStr := pyStr ("\t")

/-- A newline, the line separator of the raw log text. -/
def NL : PyStr := pyStr ("\n")

/-- The `--numstat` binary-file marker `"-"`. -/
def DASH : PyStr := pyStr ("-")

/-- The path separator used for directory truncation. -/
def SLASH : PyStr := pyStr ("/")

/-- One per-file stat record (`git_summary.py`, built at line 189):
`{"name": filename, "added": int(added), "deleted": int(deleted)}`. -/
structure FileChange where
  name : PyStr
  added : Int
  deleted : Int
  deriving DecidableEq

/-- One raw commit record as built by `parse_commit_output`
(`git_summary.py` lines 178-183). -/
structure RawCommit where
  hash : PyStr
  subject : PyStr
  date : PyStr
  files : List FileChange
  deriving DecidableEq

/-- The loop state of `parse_commit_output`: the flushed commits, the
commit currently being filled (`current_commit`, `None` before the first
header), and the `active_emails` set (insertion-ordered, duplicate-free). -/
structure PState where
  commits : List RawCommit
  current : Option RawCommit
  emails : List PyStr
  deriving DecidableEq

/-- The two exceptions `parse_commit_output` can actually raise:
`headerUnpack` is the uncaught `ValueError` of unpacking `parts[:4]` when a
delimiter-bearing line has fewer than four fields (line 177), and
`noCurrentCommit` is the uncaught `TypeError` of `current_commit["files"]`
when a stat line with two non-`"-"` counts arrives while `current_commit`
is `None` (line 189). -/
inductive ParseErr where
  | headerUnpack
  | noCurrentCommit
  deriving DecidableEq

/-- Python `set.add` on the insertion-ordered list model of a set. -/
def insertEmail (es : List PyStr) (e : PyStr) : List PyStr :=
  if e ∈ es then es else es ++ [e]

/-- One iteration of the `for line in ...` loop of `parse_commit_output`
(`git_summary.py` lines 172-193), translated branch for branch:
a line containing `"<sep>"` flushes `current_commit` and starts a new one
(raising if it unpacks to fewer than four fields); a non-blank line is
treated as a stat line: split on tabs into exactly three fields (else the
caught `ValueError` skips it), a binary-marker line is skipped, otherwise
`current_commit["files"]` is accessed (raising `TypeError` when it is
`None`) and the two counts are parsed with `int` (a caught `ValueError`
skips the line). -/
def processLine (st : PState) (line : PyStr) : Except ParseErr PState :=
  if 2 ≤ (splitOnCL SEP line).length then
    match splitOnCL SEP line with
    | h :: s :: d :: e :: _ =>
      .ok ⟨st.commits ++ st.current.toList, some ⟨h, s, d, []⟩, insertEmail st.emails e⟩
    | _ => .error .headerUnpack
  else if line.all pyIsSpace then
    .ok st
  else
    match splitOnCL TAB line with
    | [a, d, f] =>
      if a ≠ DASH ∧ d ≠ DASH then
        match st.current with
        | none => .error .noCurrentCommit
        | some c =>
          match pyInt? a, pyInt? d with
          | some ai, some di =>
            .ok ⟨st.commits, some ⟨c.hash, c.subject, c.date, c.files ++ [⟨f, ai, di⟩]⟩, st.emails⟩
          | _, _ => .ok st
      else .ok st
    | _ => .ok st

/-- The whole parsing loop, threading the state line by line and
propagating the two uncaught exceptions. -/
def processLines : PState → List PyStr → Except ParseErr PState
  | st, [] => .ok st
  | st, l :: ls =>
    match processLine st l with
    | .error e => .error e
    | .ok st' => processLines st' ls

/-- Final flush of `parse_commit_output` (lines 195-198): append the still
open commit, return the commits and the active emails. -/
def finishState (st : PState) : List RawCommit × List PyStr :=
  (st.commits ++ st.current.toList, st.emails)

/-- `parse_commit_output` on an already line-split text. -/
def parse_commit_output_lines (lines : List PyStr) : Except ParseErr (List RawCommit × List PyStr) :=
  (processLines ⟨[], none, []⟩ lines).map finishState

/-- `parse_commit_output` (`git_summary.py` lines 166-198): split the raw
log text on newlines and run the parsing loop.  (The `progressbar` wrapper
only prints; it yields the lines unchanged.) -/
def parse_commit_output (output : PyStr) : Except ParseErr (List RawCommit × List PyStr) :=
  parse_commit_output_lines (splitOnCL NL output)

/-- A line the loop treats as a commit header: it contains `"<sep>"`. -/
def isHeaderLine (line : PyStr) : Bool :=
  2 ≤ (splitOnCL SEP line).length

/-- A header line whose unpacking succeeds: at least four fields. -/
def headerOk (line : PyStr) : Bool :=
  4 ≤ (splitOnCL SEP line).length

/-- First `"<sep>"` field of a header line (the commit hash). -/
def headerHash (line : PyStr) : PyStr := (splitOnCL SEP line).getD 0 []

/-- Second `"<sep>"` field of a header line (the subject). -/
def headerSubject (line : PyStr) : PyStr := (splitOnCL SEP line).getD 1 []

/-- Third `"<sep>"` field of a header line (the date). -/
def headerDate (line : PyStr) : PyStr := (splitOnCL SEP line).getD 2 []

/-- Fourth `"<sep>"` field of a header line (the author email). -/
def headerEmail (line : PyStr) : PyStr := (splitOnCL SEP line).getD 3 []

/-- The `FileChange` a non-header line contributes: `some` exactly when the
line is a well-formed stat line `added\tdeleted\tpath` whose counts are
both numeric (a binary `"-"` marker or any malformed field gives `none`,
matching the loop's silent skip). -/
def statFile? (line : PyStr) : Option FileChange :=
  if line.all pyIsSpace then none
  else
    match splitOnCL TAB line with
    | [a, d, f] =>
      if a ≠ DASH ∧ d ≠ DASH then
        match pyInt? a, pyInt? d with
        | some ai, some di => some ⟨f, ai, di⟩
        | _, _ => none
      else none
    | _ => none

/-- The well-formed stat lines of a block of non-header lines, in order. -/
def statFiles (body : List PyStr) : List FileChange :=
  body.filterMap statFile?

/-- A non-blank line with exactly three tab fields whose two counts are
both different from `"-"`: processing it with no current commit raises the
uncaught `TypeError` (`None["files"]`). -/
def orphanStat (line : PyStr) : Bool :=
  !line.all pyIsSpace &&
    match splitOnCL TAB line with
    | [a, d, _] => decide (a ≠ DASH ∧ d ≠ DASH)
    | _ => false

/-- The commit record a header line plus its following stat block parses
to: the first three header fields and the well-formed stat lines. -/
def segCommit (p : PyStr × List PyStr) : RawCommit :=
  ⟨headerHash p.1, headerSubject p.1, headerDate p.1, statFiles p.2⟩

/-- The raw lines of a list of (header, stat-block) segments. -/
def segsLines : List (PyStr × List PyStr) → List PyStr
  | [] => []
  | p :: rest => p.1 :: (p.2 ++ segsLines rest)

/-- Fold Python `set.update` over a list of emails. -/
def insertEmails (es : List PyStr) (l : List PyStr) : List PyStr :=
  l.foldl insertEmail es

deriving instance DecidableEq for Except

/-- A parsed commit (`parse_commit`, `git_summary.py` lines 201-218).  The
`date` field carries the raw `%Y-%m-%d` text: `strptime` parses and
re-exposes it, and every claim below either returns before the date is
parsed (the merge filter precedes `strptime`) or only passes the date
through, so calendar semantics are not needed. -/
structure ParsedCommit where
  hash : PyStr
  subject : PyStr
  date : PyStr
  files : List FileChange
  added : Int
  deleted : Int
  total_impact : Int
  deriving DecidableEq

/-- `parse_commit` (`git_summary.py` lines 201-218): drop a commit whose
subject starts with `"Merge branch"` (the `not commit` guard concerns the
empty dict, which `parse_commit_output` never produces), then attach the
convenience totals; note `total_impact = max(0, added - deleted)`. -/
def parse_commit (c : RawCommit) : Option ParsedCommit :=
  if (pyStr ("Merge branch")).isPrefixOf c.subject then none
  else
    let added := (c.files.map FileChange.added).sum
    let deleted := (c.files.map FileChange.deleted).sum
    some ⟨c.hash, c.subject, c.date, c.files, added, deleted, max 0 (added - deleted)⟩

/-- `categorize_commit` (`git_summary.py` lines 221-234): lower-case the
subject, then test the keyword sets in source order, first match wins. -/
def categorize_commit (subject : PyStr) : PyStr :=
  let s := subject.map Char.toLower
  if [pyStr ("fix"), pyStr ("bug"), pyStr ("issue")].any (pyContains s) then pyStr ("Fixes")
  else if [pyStr ("feat"), pyStr ("add"), pyStr ("new")].any (pyContains s) then pyStr ("Features")
  else if [pyStr ("refactor"), pyStr ("clean"), pyStr ("improve")].any (pyContains s) then
    pyStr ("Improvements")
  else if [pyStr ("test")].any (pyContains s) then pyStr ("Tests")
  else if [pyStr ("doc")].any (pyContains s) then pyStr ("Documentation")
  else pyStr ("Other")

/-- Python list slicing `l[:n]` for an `int` bound `n` (a negative bound
counts from the end). -/
def pySlice (l : List PyStr) (n : Int) : List PyStr :=
  if n < 0 then l.take (l.length - (-n).toNat) else l.take n.toNat

/-- `get_directory_path` (`git_summary.py` lines 237-243): split the path
on `"/"` and keep the first `level` segments, or the whole path when it has
at most `level` segments. -/
def get_directory_path (file_path : PyStr) (level : Int) : PyStr :=
  let parts := splitOnCL SLASH file_path
  if level < (parts.length : Int) then List.intercalate SLASH (pySlice parts level)
  else List.intercalate SLASH parts

/-- Append a value under a key of an insertion-ordered
`defaultdict(list)`. -/
def assocAppend (m : List (PyStr × List FileChange)) (k : PyStr) (v : FileChange) :
    List (PyStr × List FileChange) :=
  match m with
  | [] => [(k, [v])]
  | (k', vs) :: rest =>
    if k' = k then (k', vs ++ [v]) :: rest else (k', vs) :: assocAppend rest k v

/-- `group_files_by_directory` (`git_summary.py` lines 246-255): group a
commit's files by their truncated directory, skipping an empty directory
(`if directory:`); the dict keeps key insertion order. -/
def group_files_by_directory (c : ParsedCommit) (dir_level : Int) :
    List (PyStr × List FileChange) :=
  c.files.foldl
    (fun m f =>
      let directory := get_directory_path f.name dir_level
      if directory ≠ [] then assocAppend m directory f else m)
    []

/-- One per-directory accumulator of `analyze_directories`: the set of
distinct touched file paths (insertion-ordered, duplicate-free; only its
size is ever read) and the running added/deleted totals. -/
structure DirAcc where
  files : List PyStr
  added : Int
  deleted : Int
  deriving DecidableEq

/-- Python `set.update` with a list of file names. -/
def insertNames (s : List PyStr) (ns : List PyStr) : List PyStr :=
  ns.foldl (fun s n => if n ∈ s then s else s ++ [n]) s

/-- Update one directory's accumulator of the insertion-ordered
`defaultdict` of `analyze_directories`. -/
def updateDirAcc (m : List (PyStr × DirAcc)) (k : PyStr) (files : List FileChange) :
    List (PyStr × DirAcc) :=
  match m with
  | [] => [(k, ⟨insertNames [] (files.map FileChange.name),
                (files.map FileChange.added).sum, (files.map FileChange.deleted).sum⟩)]
  | (k', acc) :: rest =>
    if k' = k then
      (k', ⟨insertNames acc.files (files.map FileChange.name),
            acc.added + (files.map FileChange.added).sum,
            acc.deleted + (files.map FileChange.deleted).sum⟩) :: rest
    else (k', acc) :: updateDirAcc rest k files

/-- `distribute_changes` (`git_summary.py` lines 258-263): fold one
commit's per-directory file groups into the directory accumulators. -/
def distribute_changes (files_by_dir : List (PyStr × List FileChange))
    (dir_stats : List (PyStr × DirAcc)) : List (PyStr × DirAcc) :=
  files_by_dir.foldl (fun m p => updateDirAcc m p.1 p.2) dir_stats

/-- One row of the sorted directory report built by
`format_directory_stats`. -/
structure DirEntry where
  name : PyStr
  files : Nat
  added : Int
  deleted : Int
  total_impact : Int
  deriving DecidableEq

/-- Stable insertion of `x` into a sorted list: `x` goes before the first
element `y` with `le x y`. -/
def insertSorted (le : DirEntry → DirEntry → Bool) (x : DirEntry) : List DirEntry → List DirEntry
  | [] => [x]
  | y :: ys => if le x y then x :: y :: ys else y :: insertSorted le x ys

/-- Stable insertion sort; for a total preorder `le` this computes the same
list as Python's stable `sorted`. -/
def pySorted (le : DirEntry → DirEntry → Bool) : List DirEntry → List DirEntry
  | [] => []
  | x :: xs => insertSorted le x (pySorted le xs)

/-- The comparison realizing `sorted(..., key=lambda x: x["total_impact"],
reverse=True)`: `a` may come before `b` iff `b`'s impact is at most
`a`'s. -/
def dirDescending (a b : DirEntry) : Bool :=
  b.total_impact ≤ a.total_impact

/-- `format_directory_stats` (`git_summary.py` lines 314-327): turn the
directory accumulators into report rows (`total_impact = added + deleted`)
and sort them by impact, descending, stably. -/
def format_directory_stats (dir_stats : List (PyStr × DirAcc)) : List DirEntry :=
  pySorted dirDescending
    (dir_stats.map fun p =>
      ⟨p.1, p.2.files.length, p.2.added, p.2.deleted, p.2.added + p.2.deleted⟩)

/-- `analyze_directories` (`git_summary.py` lines 330-338): accumulate all
commits' per-directory changes, then format and sort. -/
def analyze_directories (commits : List ParsedCommit) (dir_level : Int) : List DirEntry :=
  format_directory_stats
    (commits.foldl (fun stats c => distribute_changes (group_files_by_directory c dir_level) stats) [])

/-- Round half to even, Python's `round` on the exact rational value. -/
def roundHalfEven (x : ℚ) : Int :=
  let f := ⌊x⌋
  let r := x - (f : ℚ)
  if r < 1/2 then f
  else if 1/2 < r then f + 1
  else if f % 2 = 0 then f else f + 1

/-- Python `round(x, 1)` on the exact rational value. -/
def pyRound1 (x : ℚ) : ℚ := (roundHalfEven (10 * x) : ℚ) / 10

/-- `calculate_frequency_stats` (`git_summary.py` lines 296-311), with the
float arithmetic carried out exactly over `ℚ`: `(None, None)` for an empty
commit list or zero elapsed days, otherwise the `day`/`week`/`month`
cascade (`week = day * 7`, `month = day * 30.44`), rounded to one
decimal. -/
def calculate_frequency_stats (commits : List ParsedCommit) (total_days : Int) :
    Option (PyStr × ℚ) :=
  if commits = [] ∨ total_days = 0 then none
  else
    let commits_per_day : ℚ := (commits.length : ℚ) / (total_days : ℚ)
    let commits_per_week : ℚ := commits_per_day * 7
    let commits_per_month : ℚ := commits_per_day * (30.44 : ℚ)
    if 1 ≤ commits_per_day then some (pyStr ("day"), pyRound1 commits_per_day)
    else if 1 ≤ commits_per_week then some (pyStr ("week"), pyRound1 commits_per_week)
    else some (pyStr ("month"), pyRound1 commits_per_month)

/-- The four COCOMO quantities computed by `calculate_cocomo_stats` before
the final display rounding (`round(effort, 1)` etc. on the returned dict is
presentation only and is not modelled). -/
structure CocomoStats where
  effort : ℝ
  time : ℝ
  staff : ℝ
  cost : ℝ

/-- `calculate_cocomo_stats` (`git_summary.py` lines 266-294), with the
float arithmetic modelled over `ℝ` (`**` is `Real.rpow`): the organic model
`a = 2.4`, `b = 1.05`; the line basis is `max(0, added - deleted)` under
`pure_cocomo` and the caller-supplied `total_impact` otherwise; `staff =
effort / time` raises `ZeroDivisionError` when `time == 0.0` (Python floats
do not produce NaN here), modelled by `none`. -/
noncomputable def calculate_cocomo_stats (added_lines deleted_lines : Int) (yearly_salary : ℝ)
    (pure_cocomo : Bool) (total_impact : Int) : Option CocomoStats :=
  let a : ℝ := 2.4
  let b : ℝ := 1.05
  let total_lines : Int := if pure_cocomo then max 0 (added_lines - deleted_lines) else total_impact
  let kloc : ℝ := (total_lines : ℝ) / 1000
  let effort : ℝ := a * kloc ^ b
  let time : ℝ := 2.5 * effort ^ (0.38 : ℝ)
  if time = 0 then none
  else some ⟨effort, time, effort / time, effort * (yearly_salary / 12)⟩

/-- The commit list `generate_summary` aggregates (`git_summary.py` line
362): every commit surviving `parse_commit` (the comprehension calls the
pure `parse_commit` twice; a surviving commit is a non-empty dict, hence
truthy). -/
def parsedCommits (commits : List RawCommit) : List ParsedCommit :=
  commits.filterMap parse_commit

/-- `len(parsed_commits)`, the reported total commit count (line 382). -/
def total_commits (commits : List RawCommit) : Nat :=
  (parsedCommits commits).length

/-- The reported total of added lines (line 402). -/
def total_added (commits : List RawCommit) : Int :=
  ((parsedCommits commits).map ParsedCommit.added).sum

/-- The reported total of deleted lines (line 403). -/
def total_deleted (commits : List RawCommit) : Int :=
  ((parsedCommits commits).map ParsedCommit.deleted).sum

/-- The reported total impact (line 404), the sum of the per-commit
`max(0, added - deleted)` values. -/
def total_impact_sum (commits : List RawCommit) : Int :=
  ((parsedCommits commits).map ParsedCommit.total_impact).sum

/-- The category tally of `generate_summary` (lines 370-373) for one
category name. -/
def categoryCount (commits : List RawCommit) (cat : PyStr) : Nat :=
  ((parsedCommits commits).filter (fun c => categorize_commit c.subject = cat)).length

/-- The commit-frequency statistic of the report (line 397). -/
def frequencyStats (commits : List RawCommit) (total_days : Int) : Option (PyStr × ℚ) :=
  calculate_frequency_stats (parsedCommits commits) total_days

/-- The directory-impact table of the report (line 448). -/
def directoryStats (commits : List RawCommit) (dir_level : Int) : List DirEntry :=
  analyze_directories (parsedCommits commits) dir_level

/-- The COCOMO block of the report (line 410): `calculate_cocomo_stats`
applied to the three aggregates of the parsed commits. -/
noncomputable def summaryCocomo (commits : List RawCommit) (yearly_salary : ℝ)
    (pure_cocomo : Bool) : Option CocomoStats :=
  calculate_cocomo_stats (total_added commits) (total_deleted commits) yearly_salary pure_cocomo
    (total_impact_sum commits)

/-- The outcome of `subprocess.run(cmd, capture_output=True, text=True)`:
the spawned process's exit code and captured standard output.  (Without
`check=True` a non-zero exit does not raise.) -/
structure CmdResult where
  exitCode : Int
  stdout : PyStr
  deriving DecidableEq

/-- The failures `get_user_commits` can propagate: `toolMissing` is the
`FileNotFoundError` `subprocess.run` raises when the `git` binary does not
exist, and `parseFailure` is an exception escaping
`parse_commit_output`. -/
inductive GitError where
  | toolMissing
  | parseFailure (e : ParseErr)
  deriving DecidableEq

/-- `get_user_commits` (`git_summary.py` lines 112-163), from the
subprocess boundary onward: the spawn outcome is the parameter (`.error`
models a missing tool, whose `FileNotFoundError` propagates).  The exit
code of a completed process is never inspected; only `result.stdout` is
consumed — stripped, and parsed when non-empty.  An empty strip or an empty
commit list returns `([], set())`.  The argument-vector construction that
precedes the spawn is CLI plumbing outside every claim and is not
modelled. -/
def get_user_commits (spawn : Except Unit CmdResult) :
    Except GitError (List RawCommit × List PyStr) :=
  match spawn with
  | .error _ => .error .toolMissing
  | .ok result =>
    let output := pyStrip result.stdout
    if output = [] then .ok ([], [])
    else
      match parse_commit_output output with
      | .error e => .error (.parseFailure e)
      | .ok (commits, emails) =>
        if commits = [] then .ok ([], []) else .ok (commits, emails)

/-- Claim C1, witness: the segmentation law evaluated on a concrete
two-commit log with a binary-marker line and a malformed stat line. -/
def c1wPre : List PyStr := [pyStr ("")]

/-- Claim C1 witness data: two (header, stat-block) segments. -/
def c1wSegs : List (PyStr × List PyStr) :=
  [(pyStr ("h1<sep>feat: one<sep>2024-01-02<sep>a@x"),
    [pyStr ("3\t1\tsrc/m.py"), pyStr ("-\t-\tbin.dat"), pyStr ("oops")]),
   (pyStr ("h2<sep>fix: two<sep>2024-01-03<sep>b@x"), [])]

/-- The keyword test of one classifier rule: some keyword of the set
occurs in the lower-cased subject. -/
def kwMatch (subject : PyStr) (ws : List PyStr) : Bool :=
  ws.any (pyContains (subject.map Char.toLower))

/-- The three-commits-over-thirty-days example of the frequency claim. -/
def c6ExampleCommits : List ParsedCommit :=
  [⟨pyStr ("e1"), pyStr ("one"), pyStr ("2024-01-01"), [], 0, 0, 0⟩,
   ⟨pyStr ("e2"), pyStr ("two"), pyStr ("2024-01-10"), [], 0, 0, 0⟩,
   ⟨pyStr ("e3"), pyStr ("three"), pyStr ("2024-01-30"), [], 0, 0, 0⟩]

/-- The one-commit history of the C3 counterexample: 30 lines added, 10
deleted in a single file, so the glossary impact (added + deleted) is 40
while `parse_commit`'s `total_impact` is `max(0, 30 - 10) = 20`. -/
def c3Commits : List RawCommit :=
  [⟨pyStr ("c3c"), pyStr ("rework pass"), pyStr ("2024-04-04"), [⟨pyStr ("m.py"), 30, 10⟩]⟩]

/-- The effort formula exactly as claim C3 reads it: KLOC from the
glossary impact, i.e. the aggregate added-plus-deleted line count.  This
follows the spec's words, for comparison with the code's basis. -/
noncomputable def effortFromAddedPlusDeleted (added deleted : Int) : ℝ :=
  2.4 * ((((added + deleted : Int)) : ℝ) / 1000) ^ (1.05 : ℝ)

-- Sanity checks of the primitives against concrete Python behavior.
example : splitOnCL SEP (pyStr ("h<sep>subj<sep>2024-01-02<sep>a@x")) =
    [pyStr ("h"), pyStr ("subj"), pyStr ("2024-01-02"), pyStr ("a@x")] := by decide
example : splitOnCL TAB (pyStr ("3\t1\tsrc/m.py")) = [pyStr ("3"), pyStr ("1"), pyStr ("src/m.py")] := by
  decide
example : pyInt? (pyStr ("42")) = some 42 := by decide
example : pyInt? (pyStr ("-7")) = some (-7) := by decide
example : pyInt? (pyStr ("1_0")) = some 10 := by decide
example : pyInt? (pyStr ("1__0")) = none := by decide
example : pyInt? (pyStr ("-")) = none := by decide
example : pyInt? (pyStr ("")) = none := by decide
example : parse_commit_output (pyStr ("h<sep>s<sep>2024-01-02<sep>a@x\n3\t1\tsrc/m.py\n-\t-\tbin.dat")) =
    .ok ([⟨pyStr ("h"), pyStr ("s"), pyStr ("2024-01-02"), [⟨pyStr ("src/m.py"), 3, 1⟩]⟩], [pyStr ("a@x")]) := by
  decide
example : parse_commit_output (pyStr ("a<sep>b")) = .error .headerUnpack := by decide
example : parse_commit_output (pyStr ("1\t2\tf")) = .error .noCurrentCommit := by decide

-- Sanity checks of the downstream definitions.
example : categorize_commit (pyStr ("fix: add new feature")) = pyStr ("Fixes") := by decide
example : categorize_commit (pyStr ("Added docs")) = pyStr ("Features") := by decide
example : categorize_commit (pyStr ("release v2")) = pyStr ("Other") := by decide
example : get_directory_path (pyStr ("a/b/c.txt")) 1 = pyStr ("a") := by decide
example : get_directory_path (pyStr ("a/b/c.txt")) 2 = pyStr ("a/b") := by decide
example : get_directory_path (pyStr ("a/b/c.txt")) 5 = pyStr ("a/b/c.txt") := by decide
example :
    parse_commit ⟨pyStr ("h"), pyStr ("Merge branch 'dev'"), pyStr ("2024-01-02"), []⟩ = none := by
  decide
example :
    parse_commit ⟨pyStr ("h"), pyStr ("fix"), pyStr ("2024-01-02"), [⟨pyStr ("f"), 3, 1⟩]⟩ =
      some ⟨pyStr ("h"), pyStr ("fix"), pyStr ("2024-01-02"), [⟨pyStr ("f"), 3, 1⟩], 3, 1, 2⟩ := by
  decide
example :
    analyze_directories
      [⟨pyStr ("h"), pyStr ("fix"), pyStr ("2024-01-02"),
        [⟨pyStr ("a/b/f1"), 10, 2⟩, ⟨pyStr ("a/c/f2"), 20, 5⟩, ⟨pyStr ("x.txt"), 1, 1⟩], 31, 8, 23⟩] 1 =
      [⟨pyStr ("a"), 2, 30, 7, 37⟩, ⟨pyStr ("x.txt"), 1, 1, 1, 2⟩] := by decide

/-! ### Helper lemmas about the parsing loop -/

lemma exists_four_fields (xs : List PyStr) (h : 4 ≤ xs.length) :
    ∃ a b c d t, xs = a :: b :: c :: d :: t :=
  match xs, h with
  | a :: b :: c :: d :: t, _ => ⟨a, b, c, d, t, rfl⟩
  | [], h => absurd h (by simp)
  | [_], h => absurd h (by simp)
  | [_, _], h => absurd h (by simp)
  | [_, _, _], h => absurd h (by simp)

lemma processLine_header (st : PState) (l : PyStr) (hok : headerOk l = true) :
    processLine st l = .ok ⟨st.commits ++ st.current.toList,
      some ⟨headerHash l, headerSubject l, headerDate l, []⟩,
      insertEmail st.emails (headerEmail l)⟩ := by
  have h4 : 4 ≤ (splitOnCL SEP l).length := by simpa [headerOk] using hok
  obtain ⟨a, b, c, d, t, hsp⟩ := exists_four_fields _ h4
  have hc : 2 ≤ (splitOnCL SEP l).length := le_trans (by norm_num) h4
  unfold processLine headerHash headerSubject headerDate headerEmail
  rw [if_pos hc, hsp]
  simp [List.getD]

lemma processLine_badHeader (st : PState) (l : PyStr) (hih : isHeaderLine l = true)
    (hok : headerOk l = false) :
    processLine st l = .error .headerUnpack := by
  have h2 : 2 ≤ (splitOnCL SEP l).length := by simpa [isHeaderLine] using hih
  have h4 : ¬ 4 ≤ (splitOnCL SEP l).length := by simpa [headerOk] using hok
  unfold processLine
  rw [if_pos h2]
  rcases hsp : splitOnCL SEP l with _ | ⟨a, _ | ⟨b, _ | ⟨c, _ | ⟨d, t⟩⟩⟩⟩ <;>
    rw [hsp] at h2 h4 <;> simp_all

lemma processLine_statLine (cs : List RawCommit) (c : RawCommit) (es : List PyStr) (l : PyStr)
    (hnh : isHeaderLine l = false) :
    processLine ⟨cs, some c, es⟩ l =
      .ok ⟨cs, some ⟨c.hash, c.subject, c.date, c.files ++ (statFile? l).toList⟩, es⟩ := by
  have h2 : ¬ 2 ≤ (splitOnCL SEP l).length := by simpa [isHeaderLine] using hnh
  unfold processLine statFile?
  rw [if_neg h2]
  cases hb : l.all pyIsSpace
  case true => simp
  case false =>
    simp only [Bool.false_eq_true, if_false]
    rcases hsp : splitOnCL TAB l with _ | ⟨a, _ | ⟨d, _ | ⟨f, _ | ⟨x, t⟩⟩⟩⟩
    · simp
    · simp
    · simp
    · by_cases hd : a ≠ DASH ∧ d ≠ DASH
      · cases hia : pyInt? a <;> cases hid : pyInt? d <;> simp [hd, hia, hid]
      · simp [hd]
    · simp

lemma processLine_skipNone (cs : List RawCommit) (es : List PyStr) (l : PyStr)
    (hnh : isHeaderLine l = false) (ho : orphanStat l = false) :
    processLine ⟨cs, none, es⟩ l = .ok ⟨cs, none, es⟩ := by
  have h2 : ¬ 2 ≤ (splitOnCL SEP l).length := by simpa [isHeaderLine] using hnh
  unfold processLine
  rw [if_neg h2]
  unfold orphanStat at ho
  cases hb : l.all pyIsSpace
  case true => simp
  case false =>
    rw [hb] at ho
    simp only [Bool.not_false, Bool.true_and] at ho
    simp only [Bool.false_eq_true, if_false]
    rcases hsp : splitOnCL TAB l with _ | ⟨a, _ | ⟨d, _ | ⟨f, _ | ⟨x, t⟩⟩⟩⟩ <;>
      rw [hsp] at ho <;> simp_all

lemma processLine_orphan (cs : List RawCommit) (es : List PyStr) (l : PyStr)
    (hnh : isHeaderLine l = false) (ho : orphanStat l = true) :
    processLine ⟨cs, none, es⟩ l = .error .noCurrentCommit := by
  have h2 : ¬ 2 ≤ (splitOnCL SEP l).length := by simpa [isHeaderLine] using hnh
  unfold processLine
  rw [if_neg h2]
  unfold orphanStat at ho
  cases hb : l.all pyIsSpace
  case true =>
    rw [hb] at ho
    simp at ho
  case false =>
    rw [hb] at ho
    simp only [Bool.not_false, Bool.true_and] at ho
    simp only [Bool.false_eq_true, if_false]
    rcases hsp : splitOnCL TAB l with _ | ⟨a, _ | ⟨d, _ | ⟨f, _ | ⟨x, t⟩⟩⟩⟩ <;>
      rw [hsp] at ho <;> simp_all

lemma processLines_append (st : PState) (xs ys : List PyStr) :
    processLines st (xs ++ ys) =
      match processLines st xs with
      | .error e => .error e
      | .ok st' => processLines st' ys := by
  induction xs generalizing st with
  | nil => simp [processLines]
  | cons l ls ih =>
    simp only [List.cons_append, processLines]
    cases processLine st l
    · rfl
    · exact ih _

lemma statFiles_cons (l : PyStr) (ls : List PyStr) :
    statFiles (l :: ls) = (statFile? l).toList ++ statFiles ls := by
  cases h : statFile? l <;> simp [statFiles, List.filterMap_cons, h]

lemma processLines_preOnly (pre : List PyStr)
    (hpre : ∀ l ∈ pre, isHeaderLine l = false ∧ orphanStat l = false)
    (cs : List RawCommit) (es : List PyStr) :
    processLines ⟨cs, none, es⟩ pre = .ok ⟨cs, none, es⟩ := by
  induction pre with
  | nil => rfl
  | cons l ls ih =>
    obtain ⟨h1, h2⟩ := hpre l (by simp)
    simp only [processLines, processLine_skipNone cs es l h1 h2]
    exact ih fun x hx => hpre x (by simp [hx])

lemma processLines_body (body : List PyStr)
    (hb : ∀ l ∈ body, isHeaderLine l = false)
    (cs : List RawCommit) (c : RawCommit) (es : List PyStr) :
    processLines ⟨cs, some c, es⟩ body =
      .ok ⟨cs, some ⟨c.hash, c.subject, c.date, c.files ++ statFiles body⟩, es⟩ := by
  induction body generalizing c with
  | nil => simp [processLines, statFiles]
  | cons l ls ih =>
    simp only [processLines, processLine_statLine cs c es l (hb l (by simp))]
    rw [ih (fun x hx => hb x (by simp [hx]))]
    simp [statFiles_cons, List.append_assoc]

lemma processLines_segs (segs : List (PyStr × List PyStr))
    (hsegs : ∀ p ∈ segs, headerOk p.1 = true ∧ ∀ l ∈ p.2, isHeaderLine l = false) :
    ∀ (cs : List RawCommit) (cur : Option RawCommit) (es : List PyStr),
      (processLines ⟨cs, cur, es⟩ (segsLines segs)).map finishState =
        .ok (cs ++ cur.toList ++ segs.map segCommit,
          insertEmails es (segs.map fun p => headerEmail p.1)) := by
  induction segs with
  | nil =>
    intro cs cur es
    simp [segsLines, processLines, finishState, insertEmails, Except.map]
  | cons p rest ih =>
    intro cs cur es
    obtain ⟨hok, hbody⟩ := hsegs p (by simp)
    simp only [segsLines, processLines, processLine_header ⟨cs, cur, es⟩ p.1 hok,
      processLines_append, processLines_body p.2 hbody]
    rw [ih (fun x hx => hsegs x (by simp [hx]))]
    simp [segCommit, insertEmails, List.append_assoc]

/-- The successful runs of `parse_commit_output`, characterized: a raw
text whose lines decompose into a block of skippable lines followed by
(header, stat-block) segments — every header with at least four fields,
stat blocks free of delimiter lines, and no orphan stat line before the
first header — parses to exactly one commit per header, each carrying
exactly the well-formed stat lines of its block, with every header's email
collected. -/
lemma parse_characterization (pre : List PyStr) (segs : List (PyStr × List PyStr))
    (hpre : ∀ l ∈ pre, isHeaderLine l = false ∧ orphanStat l = false)
    (hsegs : ∀ p ∈ segs, headerOk p.1 = true ∧ ∀ l ∈ p.2, isHeaderLine l = false) :
    parse_commit_output_lines (pre ++ segsLines segs) =
      .ok (segs.map segCommit, insertEmails [] (segs.map fun p => headerEmail p.1)) := by
  unfold parse_commit_output_lines
  rw [processLines_append, processLines_preOnly pre hpre]
  have h := processLines_segs segs hsegs [] none []
  simpa using h

/-! ### Email-collection lemmas -/

lemma mem_insertEmail_self (es : List PyStr) (e : PyStr) : e ∈ insertEmail es e := by
  unfold insertEmail
  by_cases h : e ∈ es <;> simp [h]

lemma mem_insertEmail_of_mem (es : List PyStr) (x e : PyStr) (h : e ∈ es) :
    e ∈ insertEmail es x := by
  unfold insertEmail
  by_cases hx : x ∈ es <;> simp [h, hx]

lemma processLine_emails_mono (st : PState) (l : PyStr) (st' : PState)
    (h : processLine st l = .ok st') : ∀ e ∈ st.emails, e ∈ st'.emails := by
  obtain ⟨cs, cur, es⟩ := st
  by_cases hih : isHeaderLine l = true
  · by_cases hok : headerOk l = true
    · rw [processLine_header _ _ hok] at h
      simp only [Except.ok.injEq] at h
      subst h
      exact fun e he => mem_insertEmail_of_mem _ _ _ he
    · rw [processLine_badHeader _ _ hih (by simpa using hok)] at h
      simp at h
  · have hih' : isHeaderLine l = false := by simpa using hih
    cases cur with
    | some c =>
      rw [processLine_statLine _ _ _ _ hih'] at h
      simp only [Except.ok.injEq] at h
      subst h
      exact fun e he => he
    | none =>
      by_cases ho : orphanStat l = true
      · rw [processLine_orphan _ _ _ hih' ho] at h
        simp at h
      · rw [processLine_skipNone _ _ _ hih' (by simpa using ho)] at h
        simp only [Except.ok.injEq] at h
        subst h
        exact fun e he => he

lemma processLines_emails_mono (ls : List PyStr) :
    ∀ (st st' : PState), processLines st ls = .ok st' → ∀ e ∈ st.emails, e ∈ st'.emails := by
  induction ls with
  | nil =>
    intro st st' h
    simp only [processLines, Except.ok.injEq] at h
    subst h
    exact fun e he => he
  | cons l ls ih =>
    intro st st' h
    simp only [processLines] at h
    cases hpl : processLine st l with
    | error e => rw [hpl] at h; simp at h
    | ok st₁ =>
      rw [hpl] at h
      exact fun e he => ih st₁ st' h e (processLine_emails_mono st l st₁ hpl e he)

lemma processLine_ok_header_emails (st : PState) (l : PyStr) (st' : PState)
    (h : processLine st l = .ok st') (hih : isHeaderLine l = true) :
    st'.emails = insertEmail st.emails (headerEmail l) := by
  by_cases hok : headerOk l = true
  · rw [processLine_header _ _ hok] at h
    simp only [Except.ok.injEq] at h
    subst h
    rfl
  · rw [processLine_badHeader _ _ hih (by simpa using hok)] at h
    simp at h

lemma processLines_header_email (ls : List PyStr) :
    ∀ (st st' : PState), processLines st ls = .ok st' →
      ∀ l ∈ ls, isHeaderLine l = true → headerEmail l ∈ st'.emails := by
  induction ls with
  | nil => intro st st' _ l hl; simp at hl
  | cons l₀ ls ih =>
    intro st st' h l hl hih
    simp only [processLines] at h
    cases hpl : processLine st l₀ with
    | error e => rw [hpl] at h; simp at h
    | ok st₁ =>
      rw [hpl] at h
      rcases List.mem_cons.mp hl with rfl | hl'
      · have he : headerEmail l ∈ st₁.emails := by
          rw [processLine_ok_header_emails st l st₁ hpl hih]
          exact mem_insertEmail_self _ _
        exact processLines_emails_mono ls st₁ st' h _ he
      · exact ih st₁ st' h l hl' hih

/-! ### Lemmas about `splitOnCL` and `List.intercalate` -/

lemma intercalate_singleton (sep x : PyStr) : List.intercalate sep [x] = x := by
  simp [List.intercalate]

lemma intercalate_cons (sep x : PyStr) (l : List PyStr) (h : l ≠ []) :
    List.intercalate sep (x :: l) = x ++ sep ++ List.intercalate sep l := by
  cases l with
  | nil => simp at h
  | cons b t => simp [List.intercalate, List.intersperse]

lemma splitOnFuel_ne_nil (sep : PyStr) :
    ∀ (fuel : Nat) (s acc : PyStr), splitOnFuel sep fuel s acc ≠ [] := by
  intro fuel
  induction fuel with
  | zero => intro s acc; cases s <;> simp [splitOnFuel]
  | succ n ih =>
    intro s acc
    cases s with
    | nil => simp [splitOnFuel]
    | cons c rest =>
      simp only [splitOnFuel]
      by_cases hp : sep.isPrefixOf (c :: rest)
      · simp [hp]
      · simp only [hp, Bool.false_eq_true, if_false]
        exact ih _ _

lemma intercalate_splitOnFuel (sep : PyStr) (hsep : sep ≠ []) :
    ∀ (fuel : Nat) (s acc : PyStr), s.length ≤ fuel →
      List.intercalate sep (splitOnFuel sep fuel s acc) = acc.reverse ++ s := by
  intro fuel
  induction fuel with
  | zero =>
    intro s acc h
    have hs : s = [] := List.length_eq_zero.mp (Nat.le_zero.mp h)
    subst hs
    simp [splitOnFuel, intercalate_singleton]
  | succ n ih =>
    intro s acc h
    cases s with
    | nil => simp [splitOnFuel, intercalate_singleton]
    | cons c rest =>
      simp only [splitOnFuel]
      by_cases hp : sep.isPrefixOf (c :: rest)
      · rw [if_pos hp]
        obtain ⟨t, ht⟩ := List.isPrefixOf_iff_prefix.mp hp
        cases sep with
        | nil => simp at hsep
        | cons s0 ss =>
          have hc : s0 = c ∧ ss ++ t = rest := by
            simpa using ht
          obtain ⟨hc0, hrest⟩ := hc
          have hdrop : List.drop ((s0 :: ss).length - 1) rest = t := by
            rw [← hrest]
            simp [List.drop_left]
          have htlen : t.length ≤ n := by
            have h1 : rest.length ≤ n := by simpa using h
            have h2 : t.length ≤ rest.length := by
              rw [← hrest]; simp
            exact le_trans h2 h1
          rw [intercalate_cons _ _ _ (splitOnFuel_ne_nil _ _ _ _), hdrop, ih t [] htlen]
          subst hc0 hrest
          simp
      · rw [if_neg hp, ih rest (c :: acc) (by simpa using h)]
        simp

lemma intercalate_splitOnCL (sep s : PyStr) (hsep : sep ≠ []) :
    List.intercalate sep (splitOnCL sep s) = s := by
  unfold splitOnCL
  rw [if_neg hsep]
  simpa using intercalate_splitOnFuel sep hsep s.length s [] le_rfl

/-! ### Sortedness of the directory report -/

lemma mem_insertSorted (le : DirEntry → DirEntry → Bool) (x : DirEntry) :
    ∀ (l : List DirEntry) (z : DirEntry), z ∈ insertSorted le x l ↔ z = x ∨ z ∈ l := by
  intro l
  induction l with
  | nil => intro z; simp [insertSorted]
  | cons y ys ih =>
    intro z
    unfold insertSorted
    by_cases h : le x y = true
    · simp [h]
    · simp only [h, Bool.false_eq_true, if_false, List.mem_cons, ih z]
      tauto

lemma pairwise_insertSorted (le : DirEntry → DirEntry → Bool)
    (htot : ∀ a b, le a b = true ∨ le b a = true)
    (htr : ∀ a b c, le a b = true → le b c = true → le a c = true) (x : DirEntry) :
    ∀ l : List DirEntry, l.Pairwise (fun a b => le a b = true) →
      (insertSorted le x l).Pairwise (fun a b => le a b = true) := by
  intro l
  induction l with
  | nil => intro _; simp [insertSorted]
  | cons y ys ih =>
    intro hl
    rw [List.pairwise_cons] at hl
    obtain ⟨hy, hys⟩ := hl
    unfold insertSorted
    by_cases hxy : le x y = true
    · rw [if_pos hxy]
      refine List.Pairwise.cons ?_ (List.Pairwise.cons hy hys)
      intro z hz
      rcases List.mem_cons.mp hz with rfl | hz'
      · exact hxy
      · exact htr x y z hxy (hy z hz')
    · rw [if_neg hxy]
      refine List.Pairwise.cons ?_ (ih hys)
      intro z hz
      rcases (mem_insertSorted le x ys z).mp hz with rfl | hz'
      · rcases htot z y with h | h
        · exact absurd h hxy
        · exact h
      · exact hy z hz'

lemma pairwise_pySorted (le : DirEntry → DirEntry → Bool)
    (htot : ∀ a b, le a b = true ∨ le b a = true)
    (htr : ∀ a b c, le a b = true → le b c = true → le a c = true) :
    ∀ l : List DirEntry, (pySorted le l).Pairwise (fun a b => le a b = true) := by
  intro l
  induction l with
  | nil => simp [pySorted]
  | cons x xs ih => exact pairwise_insertSorted le htot htr x _ ih

lemma format_directory_stats_sorted (ds : List (PyStr × DirAcc)) :
    (format_directory_stats ds).Pairwise (fun a b => b.total_impact ≤ a.total_impact) := by
  have htot : ∀ a b : DirEntry, dirDescending a b = true ∨ dirDescending b a = true := by
    intro a b
    simp only [dirDescending, decide_eq_true_eq]
    exact le_total _ _
  have htr : ∀ a b c : DirEntry,
      dirDescending a b = true → dirDescending b c = true → dirDescending a c = true := by
    intro a b c hab hbc
    simp only [dirDescending, decide_eq_true_eq] at *
    exact le_trans hbc hab
  have h := pairwise_pySorted dirDescending htot htr
    (ds.map fun p => ⟨p.1, p.2.files.length, p.2.added, p.2.deleted, p.2.added + p.2.deleted⟩)
  exact h.imp fun hab => by simpa [dirDescending] using hab

/-! ### Claim theorems -/

lemma isHeaderLine_of_headerOk (l : PyStr) (h : headerOk l = true) : isHeaderLine l = true := by
  unfold headerOk at h
  unfold isHeaderLine
  simp only [decide_eq_true_eq] at *
  omega

lemma countP_segsLines (segs : List (PyStr × List PyStr))
    (hsegs : ∀ p ∈ segs, headerOk p.1 = true ∧ ∀ l ∈ p.2, isHeaderLine l = false) :
    (segsLines segs).countP (fun l => isHeaderLine l) = segs.length := by
  induction segs with
  | nil => rfl
  | cons p rest ih =>
    obtain ⟨hok, hbody⟩ := hsegs p (by simp)
    have hbody0 : p.2.countP (fun l => isHeaderLine l) = 0 :=
      List.countP_eq_zero.mpr fun l hl => by simp [hbody l hl]
    simp only [segsLines, List.countP_cons, List.countP_append, hbody0,
      isHeaderLine_of_headerOk p.1 hok, if_pos, List.length_cons]
    rw [ih fun x hx => hsegs x (by simp [hx])]
    omega

/-- Claim C1 (amended), the parser segmentation law: for every raw log
text whose delimiter-bearing lines all unpack to at least four fields and
in which no orphan stat line precedes the first header — i.e. whose line
list splits into a skippable block `pre` followed by (header, stat-block)
segments — `parse_commit_output` produces exactly one commit record per
delimiter-bearing line (their count equals the number of such lines), and
each record's file list consists exactly of the well-formed
`added\tdeleted\tpath` stat lines following its header and preceding the
next header, a line with a binary `"-"` count contributing no
`FileChange`. -/
theorem c1_parser_segmentation (pre : List PyStr) (segs : List (PyStr × List PyStr))
    (hpre : ∀ l ∈ pre, isHeaderLine l = false ∧ orphanStat l = false)
    (hsegs : ∀ p ∈ segs, headerOk p.1 = true ∧ ∀ l ∈ p.2, isHeaderLine l = false) :
    parse_commit_output_lines (pre ++ segsLines segs) =
      .ok (segs.map segCommit, insertEmails [] (segs.map fun p => headerEmail p.1)) ∧
    (segs.map segCommit).length =
      (pre ++ segsLines segs).countP (fun l => isHeaderLine l) := by
  refine ⟨parse_characterization pre segs hpre hsegs, ?_⟩
  have h0 : pre.countP (fun l => isHeaderLine l) = 0 :=
    List.countP_eq_zero.mpr fun l hl => by simp [(hpre l hl).1]
  rw [List.countP_append, h0, countP_segsLines segs hsegs]
  simp

/-- Claim C1, counterexample to the claim as stated: the raw log text
`"x<sep>y"` has exactly one delimiter-bearing line, yet
`parse_commit_output` produces no commit record for it — it raises the
uncaught `ValueError` of unpacking fewer than four fields. -/
theorem c1_counterexample :
    parse_commit_output (pyStr ("x<sep>y")) = .error .headerUnpack ∧
    (splitOnCL NL (pyStr ("x<sep>y"))).countP (fun l => isHeaderLine l) = 1 := by
  decide

/-- Claim C1, witness theorem: both hypotheses hold for the concrete data
and the segmentation law follows for it. -/
theorem c1_witness :
    (∀ l ∈ c1wPre, isHeaderLine l = false ∧ orphanStat l = false) ∧
    (∀ p ∈ c1wSegs, headerOk p.1 = true ∧ ∀ l ∈ p.2, isHeaderLine l = false) ∧
    (parse_commit_output_lines (c1wPre ++ segsLines c1wSegs) =
      .ok (c1wSegs.map segCommit, insertEmails [] (c1wSegs.map fun p => headerEmail p.1)) ∧
     (c1wSegs.map segCommit).length =
       (c1wPre ++ segsLines c1wSegs).countP (fun l => isHeaderLine l)) :=
  ⟨by decide, by decide, c1_parser_segmentation c1wPre c1wSegs (by decide) (by decide)⟩

/-- Claim C2 (amended): `parse_commit_output` raises in exactly two
situations — a delimiter-bearing line with fewer than four fields
(uncaught `ValueError`) and a non-blank three-field stat line with two
non-`"-"` counts arriving while no commit is current, e.g. before the
first header (uncaught `TypeError`).  Under the absence of these two
patterns parsing runs to completion, and every other malformed line is
silently skipped: a non-header line that yields no `FileChange` leaves the
state unchanged. -/
theorem c2_exception_behavior :
    (∀ (pre : List PyStr) (segs : List (PyStr × List PyStr)),
      (∀ l ∈ pre, isHeaderLine l = false ∧ orphanStat l = false) →
      (∀ p ∈ segs, headerOk p.1 = true ∧ ∀ l ∈ p.2, isHeaderLine l = false) →
      (parse_commit_output_lines (pre ++ segsLines segs)).isOk = true) ∧
    (∀ (cs : List RawCommit) (c : RawCommit) (es : List PyStr) (l : PyStr),
      isHeaderLine l = false → statFile? l = none →
      processLine ⟨cs, some c, es⟩ l = .ok ⟨cs, some c, es⟩) ∧
    (∀ (st : PState) (l : PyStr), isHeaderLine l = true → headerOk l = false →
      processLine st l = .error .headerUnpack) ∧
    (∀ (cs : List RawCommit) (es : List PyStr) (l : PyStr),
      isHeaderLine l = false → orphanStat l = true →
      processLine ⟨cs, none, es⟩ l = .error .noCurrentCommit) := by
  refine ⟨?_, ?_, ?_, ?_⟩
  · intro pre segs hpre hsegs
    rw [parse_characterization pre segs hpre hsegs]
    rfl
  · intro cs c es l hnh hsf
    rw [processLine_statLine cs c es l hnh, hsf]
    simp
  · intro st l hih hok
    exact processLine_badHeader st l hih hok
  · intro cs es l hnh ho
    exact processLine_orphan cs es l hnh ho

/-- Claim C2, counterexample to the claim as stated: two malformed inputs
on which `parse_commit_output` raises instead of skipping — a well-formed
stat line before any header (uncaught `TypeError`) and a delimiter-bearing
line with only two fields (uncaught `ValueError`). -/
theorem c2_counterexample :
    parse_commit_output (pyStr ("12\t5\thello.py")) = .error .noCurrentCommit ∧
    parse_commit_output (pyStr ("abc<sep>def")) = .error .headerUnpack := by
  decide

/-- Claim C2, witness: the four parts of the exception characterization
evaluated at concrete inputs. -/
theorem c2_witness :
    (parse_commit_output_lines
        ([pyStr (" ")] ++ segsLines [(pyStr ("a<sep>b<sep>c<sep>d"), [])])).isOk = true ∧
    processLine ⟨[], some ⟨pyStr ("a"), pyStr ("b"), pyStr ("c"), []⟩, []⟩ (pyStr ("x\ty")) =
      .ok ⟨[], some ⟨pyStr ("a"), pyStr ("b"), pyStr ("c"), []⟩, []⟩ ∧
    processLine ⟨[], none, []⟩ (pyStr ("p<sep>q")) = .error .headerUnpack ∧
    processLine ⟨[], none, []⟩ (pyStr ("7\t8\tz")) = .error .noCurrentCommit :=
  ⟨c2_exception_behavior.1 [pyStr (" ")] [(pyStr ("a<sep>b<sep>c<sep>d"), [])]
      (by decide) (by decide),
   c2_exception_behavior.2.1 [] ⟨pyStr ("a"), pyStr ("b"), pyStr ("c"), []⟩ [] (pyStr ("x\ty"))
      (by decide) (by decide),
   c2_exception_behavior.2.2.1 ⟨[], none, []⟩ (pyStr ("p<sep>q")) (by decide) (by decide),
   c2_exception_behavior.2.2.2 [] [] (pyStr ("7\t8\tz")) (by decide) (by decide)⟩

/-- Claim C10: whenever `parse_commit_output` succeeds, the returned
active-email set contains the fourth field of every delimiter-bearing line
of the input — merge-commit headers included, since emails are collected
before `parse_commit` filters; concretely, an author whose only commit in
the window is a merge commit still appears in the returned set while the
commit itself survives into no aggregate (`parse_commit` drops it and the
total count over it is zero). -/
theorem c10_emails_collected_before_filter :
    (∀ (output : PyStr) (commits : List RawCommit) (emails : List PyStr),
      parse_commit_output output = .ok (commits, emails) →
      ∀ l ∈ splitOnCL NL output, isHeaderLine l = true → headerEmail l ∈ emails) ∧
    (parse_commit_output (pyStr ("f00d<sep>Merge branch 'topic'<sep>2024-05-05<sep>carol@x<sep>")) =
      .ok ([⟨pyStr ("f00d"), pyStr ("Merge branch 'topic'"), pyStr ("2024-05-05"), []⟩],
        [pyStr ("carol@x")]) ∧
     parse_commit ⟨pyStr ("f00d"), pyStr ("Merge branch 'topic'"), pyStr ("2024-05-05"), []⟩ = none ∧
     total_commits [⟨pyStr ("f00d"), pyStr ("Merge branch 'topic'"), pyStr ("2024-05-05"), []⟩] = 0) := by
  constructor
  · intro output commits emails h l hl hih
    unfold parse_commit_output parse_commit_output_lines at h
    cases hpl : processLines ⟨[], none, []⟩ (splitOnCL NL output) with
    | error e => rw [hpl] at h; simp [Except.map] at h
    | ok st' =>
      rw [hpl] at h
      simp only [Except.map, finishState, Except.ok.injEq, Prod.mk.injEq] at h
      obtain ⟨-, he⟩ := h
      rw [← he]
      exact processLines_header_email _ _ _ hpl l hl hih
  · exact ⟨by decide, by decide, by decide⟩

/-- Claim C10, witness: the membership law applied to the concrete
merge-only log: the merge author's email is in the returned set. -/
theorem c10_witness :
    headerEmail (pyStr ("f00d<sep>Merge branch 'topic'<sep>2024-05-05<sep>carol@x<sep>")) ∈
      [pyStr ("carol@x")] :=
  c10_emails_collected_before_filter.1
    (pyStr ("f00d<sep>Merge branch 'topic'<sep>2024-05-05<sep>carol@x<sep>"))
    [⟨pyStr ("f00d"), pyStr ("Merge branch 'topic'"), pyStr ("2024-05-05"), []⟩]
    [pyStr ("carol@x")] (by decide)
    (pyStr ("f00d<sep>Merge branch 'topic'<sep>2024-05-05<sep>carol@x<sep>")) (by decide) (by decide)

/-- Claim C5: a commit whose subject starts with `"Merge branch"` is
dropped by `parse_commit`, and inserting such a commit anywhere into the
commit list leaves every downstream aggregate unchanged — the parsed list,
the total commit count, the added/deleted line totals, every category
count, the frequency statistic and the directory-impact table. -/
theorem c5_merge_commits_excluded (c : RawCommit)
    (h : (pyStr ("Merge branch")).isPrefixOf c.subject = true) :
    parse_commit c = none ∧
    ∀ (l1 l2 : List RawCommit) (cat : PyStr) (td lvl : Int),
      parsedCommits (l1 ++ c :: l2) = parsedCommits (l1 ++ l2) ∧
      total_commits (l1 ++ c :: l2) = total_commits (l1 ++ l2) ∧
      total_added (l1 ++ c :: l2) = total_added (l1 ++ l2) ∧
      total_deleted (l1 ++ c :: l2) = total_deleted (l1 ++ l2) ∧
      categoryCount (l1 ++ c :: l2) cat = categoryCount (l1 ++ l2) cat ∧
      frequencyStats (l1 ++ c :: l2) td = frequencyStats (l1 ++ l2) td ∧
      directoryStats (l1 ++ c :: l2) lvl = directoryStats (l1 ++ l2) lvl := by
  have hnone : parse_commit c = none := by
    unfold parse_commit
    rw [if_pos h]
  have hpc : ∀ l1 l2 : List RawCommit,
      parsedCommits (l1 ++ c :: l2) = parsedCommits (l1 ++ l2) := by
    intro l1 l2
    unfold parsedCommits
    rw [List.filterMap_append, List.filterMap_append, List.filterMap_cons, hnone]
  refine ⟨hnone, fun l1 l2 cat td lvl => ⟨hpc l1 l2, ?_, ?_, ?_, ?_, ?_, ?_⟩⟩ <;>
    simp only [total_commits, total_added, total_deleted, categoryCount, frequencyStats,
      directoryStats, hpc l1 l2]

/-- Claim C5, witness: the exclusion law evaluated at a concrete merge
commit inserted next to a normal commit. -/
theorem c5_witness :
    (pyStr ("Merge branch")).isPrefixOf (pyStr ("Merge branch 'feature' into main")) = true ∧
    parse_commit ⟨pyStr ("abc123"), pyStr ("Merge branch 'feature' into main"), pyStr ("2024-02-02"),
      [⟨pyStr ("f.py"), 5, 5⟩]⟩ = none ∧
    total_commits
        [⟨pyStr ("def456"), pyStr ("fix: crash"), pyStr ("2024-02-01"), [⟨pyStr ("g.py"), 2, 1⟩]⟩,
         ⟨pyStr ("abc123"), pyStr ("Merge branch 'feature' into main"), pyStr ("2024-02-02"),
           [⟨pyStr ("f.py"), 5, 5⟩]⟩] =
      total_commits
        [⟨pyStr ("def456"), pyStr ("fix: crash"), pyStr ("2024-02-01"), [⟨pyStr ("g.py"), 2, 1⟩]⟩] ∧
    total_added
        [⟨pyStr ("def456"), pyStr ("fix: crash"), pyStr ("2024-02-01"), [⟨pyStr ("g.py"), 2, 1⟩]⟩,
         ⟨pyStr ("abc123"), pyStr ("Merge branch 'feature' into main"), pyStr ("2024-02-02"),
           [⟨pyStr ("f.py"), 5, 5⟩]⟩] =
      total_added
        [⟨pyStr ("def456"), pyStr ("fix: crash"), pyStr ("2024-02-01"), [⟨pyStr ("g.py"), 2, 1⟩]⟩] :=
  ⟨by decide,
   (c5_merge_commits_excluded _ (by decide)).1,
   (((c5_merge_commits_excluded _ (by decide)).2
      [⟨pyStr ("def456"), pyStr ("fix: crash"), pyStr ("2024-02-01"), [⟨pyStr ("g.py"), 2, 1⟩]⟩] []
      (pyStr ("Fixes")) 30 1).2.1),
   (((c5_merge_commits_excluded _ (by decide)).2
      [⟨pyStr ("def456"), pyStr ("fix: crash"), pyStr ("2024-02-01"), [⟨pyStr ("g.py"), 2, 1⟩]⟩] []
      (pyStr ("Fixes")) 30 1).2.2.1)⟩

/-- Claim C8: `categorize_commit` lower-cases the subject and applies the
keyword rules in fixed priority order — Fixes (fix/bug/issue), Features
(feat/add/new), Improvements (refactor/clean/improve), Tests (test),
Documentation (doc) — returning the first matching category and `"Other"`
when none matches; a subject matching several sets is classified by the
earliest rule only, so `"fix: add new feature"` is `"Fixes"`. -/
theorem c8_classifier_priority :
    (∀ subject : PyStr,
      (categorize_commit subject = pyStr ("Fixes") ↔
        kwMatch subject [pyStr ("fix"), pyStr ("bug"), pyStr ("issue")] = true) ∧
      (categorize_commit subject = pyStr ("Features") ↔
        (kwMatch subject [pyStr ("fix"), pyStr ("bug"), pyStr ("issue")] = false ∧
         kwMatch subject [pyStr ("feat"), pyStr ("add"), pyStr ("new")] = true)) ∧
      (categorize_commit subject = pyStr ("Improvements") ↔
        (kwMatch subject [pyStr ("fix"), pyStr ("bug"), pyStr ("issue")] = false ∧
         kwMatch subject [pyStr ("feat"), pyStr ("add"), pyStr ("new")] = false ∧
         kwMatch subject [pyStr ("refactor"), pyStr ("clean"), pyStr ("improve")] = true)) ∧
      (categorize_commit subject = pyStr ("Tests") ↔
        (kwMatch subject [pyStr ("fix"), pyStr ("bug"), pyStr ("issue")] = false ∧
         kwMatch subject [pyStr ("feat"), pyStr ("add"), pyStr ("new")] = false ∧
         kwMatch subject [pyStr ("refactor"), pyStr ("clean"), pyStr ("improve")] = false ∧
         kwMatch subject [pyStr ("test")] = true)) ∧
      (categorize_commit subject = pyStr ("Documentation") ↔
        (kwMatch subject [pyStr ("fix"), pyStr ("bug"), pyStr ("issue")] = false ∧
         kwMatch subject [pyStr ("feat"), pyStr ("add"), pyStr ("new")] = false ∧
         kwMatch subject [pyStr ("refactor"), pyStr ("clean"), pyStr ("improve")] = false ∧
         kwMatch subject [pyStr ("test")] = false ∧
         kwMatch subject [pyStr ("doc")] = true)) ∧
      (categorize_commit subject = pyStr ("Other") ↔
        (kwMatch subject [pyStr ("fix"), pyStr ("bug"), pyStr ("issue")] = false ∧
         kwMatch subject [pyStr ("feat"), pyStr ("add"), pyStr ("new")] = false ∧
         kwMatch subject [pyStr ("refactor"), pyStr ("clean"), pyStr ("improve")] = false ∧
         kwMatch subject [pyStr ("test")] = false ∧
         kwMatch subject [pyStr ("doc")] = false))) ∧
    categorize_commit (pyStr ("fix: add new feature")) = pyStr ("Fixes") := by
  constructor
  · intro subject
    cases h1 : kwMatch subject [pyStr ("fix"), pyStr ("bug"), pyStr ("issue")] <;>
    cases h2 : kwMatch subject [pyStr ("feat"), pyStr ("add"), pyStr ("new")] <;>
    cases h3 : kwMatch subject [pyStr ("refactor"), pyStr ("clean"), pyStr ("improve")] <;>
    cases h4 : kwMatch subject [pyStr ("test")] <;>
    cases h5 : kwMatch subject [pyStr ("doc")] <;>
      (unfold kwMatch at h1 h2 h3 h4 h5
       simp only [categorize_commit, h1, h2, h3, h4, h5, Bool.false_eq_true, if_false, if_true,
         iff_true, iff_false, true_and, and_true, false_and, and_false, not_false_iff]
       try decide)
  · decide

/-- Unfolded form of `calculate_cocomo_stats` (its `let` bindings
inlined). -/
lemma calculate_cocomo_stats_eq (added deleted : Int) (salary : ℝ) (p : Bool) (ti : Int) :
    calculate_cocomo_stats added deleted salary p ti =
      (if (2.5:ℝ) * ((2.4:ℝ) *
            ((((if p then max 0 (added - deleted) else ti) : Int) : ℝ) / 1000) ^ (1.05:ℝ)) ^
            (0.38:ℝ) = 0 then
        none
      else
        some ⟨(2.4:ℝ) * ((((if p then max 0 (added - deleted) else ti) : Int) : ℝ) / 1000) ^
                (1.05:ℝ),
              (2.5:ℝ) * ((2.4:ℝ) *
                ((((if p then max 0 (added - deleted) else ti) : Int) : ℝ) / 1000) ^ (1.05:ℝ)) ^
                (0.38:ℝ),
              ((2.4:ℝ) * ((((if p then max 0 (added - deleted) else ti) : Int) : ℝ) / 1000) ^
                (1.05:ℝ)) /
                ((2.5:ℝ) * ((2.4:ℝ) *
                  ((((if p then max 0 (added - deleted) else ti) : Int) : ℝ) / 1000) ^ (1.05:ℝ)) ^
                  (0.38:ℝ)),
              ((2.4:ℝ) * ((((if p then max 0 (added - deleted) else ti) : Int) : ℝ) / 1000) ^
                (1.05:ℝ)) * (salary / 12)⟩) := rfl

/-- Unfolded form of `calculate_frequency_stats` (its `let` bindings
inlined). -/
lemma calculate_frequency_stats_eq (commits : List ParsedCommit) (td : Int) :
    calculate_frequency_stats commits td =
      if commits = [] ∨ td = 0 then none
      else if (1:ℚ) ≤ (commits.length : ℚ) / (td : ℚ) then
        some (pyStr ("day"), pyRound1 ((commits.length : ℚ) / (td : ℚ)))
      else if (1:ℚ) ≤ (commits.length : ℚ) / (td : ℚ) * 7 then
        some (pyStr ("week"), pyRound1 ((commits.length : ℚ) / (td : ℚ) * 7))
      else some (pyStr ("month"), pyRound1 ((commits.length : ℚ) / (td : ℚ) * (30.44:ℚ))) := rfl

/-- Claim C7: for every depth `N ≥ 1`, `get_directory_path` truncates a
path to its first `N` slash-separated segments, and a path with at most
`N` segments is kept whole; `"a/b/c.txt"` goes to `"a"` at depth 1,
`"a/b"` at depth 2 and to itself at depth 5; and the per-prefix table
produced by `analyze_directories` (via `format_directory_stats`) is sorted
by `added + deleted` descending, with the added/deleted counts of each
file attributed to its truncated prefix. -/
theorem c7_directory_attribution (p : PyStr) (N : Int) (hN : 1 ≤ N) :
    get_directory_path p N = List.intercalate SLASH ((splitOnCL SLASH p).take N.toNat) ∧
    (((splitOnCL SLASH p).length : Int) ≤ N → get_directory_path p N = p) ∧
    get_directory_path (pyStr ("a/b/c.txt")) 1 = pyStr ("a") ∧
    get_directory_path (pyStr ("a/b/c.txt")) 2 = pyStr ("a/b") ∧
    get_directory_path (pyStr ("a/b/c.txt")) 5 = pyStr ("a/b/c.txt") ∧
    (∀ (commits : List ParsedCommit) (lvl : Int),
      (analyze_directories commits lvl).Pairwise fun a b => b.total_impact ≤ a.total_impact) ∧
    analyze_directories
        [⟨pyStr ("h"), pyStr ("x"), pyStr ("2024-01-02"),
          [⟨pyStr ("a/b/f1"), 10, 2⟩, ⟨pyStr ("a/c/f2"), 20, 5⟩, ⟨pyStr ("x.txt"), 1, 1⟩], 31, 8, 23⟩] 1 =
      [⟨pyStr ("a"), 2, 30, 7, 37⟩, ⟨pyStr ("x.txt"), 1, 1, 1, 2⟩] := by
  refine ⟨?_, ?_, by decide, by decide, by decide, ?_, by decide⟩
  · unfold get_directory_path pySlice
    by_cases h : N < ((splitOnCL SLASH p).length : Int)
    · rw [if_pos h, if_neg (by omega)]
    · rw [if_neg h]
      have hlen : (splitOnCL SLASH p).length ≤ N.toNat := by omega
      rw [List.take_of_length_le hlen]
  · intro hle
    unfold get_directory_path
    rw [if_neg (by omega)]
    exact intercalate_splitOnCL SLASH p (by decide)
  · intro commits lvl
    unfold analyze_directories
    exact format_directory_stats_sorted _

/-- Claim C7, witness: truncation at a concrete path and depth, and
sortedness of a concrete table. -/
theorem c7_witness :
    (1 ≤ (2:Int)) ∧
    get_directory_path (pyStr ("m/n/o")) 2 =
      List.intercalate SLASH ((splitOnCL SLASH (pyStr ("m/n/o"))).take (2:Int).toNat) ∧
    (analyze_directories [] 3).Pairwise (fun a b => b.total_impact ≤ a.total_impact) :=
  ⟨by decide, (c7_directory_attribution (pyStr ("m/n/o")) 2 (by decide)).1,
   (c7_directory_attribution (pyStr ("m/n/o")) 2 (by decide)).2.2.2.2.2.1 [] 3⟩

/-- Claim C6 (amended): for a non-empty commit list,
`calculate_frequency_stats` returns nothing at zero elapsed days; for
positive elapsed days it reports per-day when the day rate is at least 1,
else per-week when the week rate (day rate times 7) is at least 1, else
per-month (day rate times 30.44) unconditionally — even when the month
rate is below 1 — each rounded to one decimal; and 3 commits over 30
elapsed days report exactly 3.0 per month. -/
theorem c6_frequency_cascade (commits : List ParsedCommit) (d : Int)
    (hne : commits ≠ []) (hd : 0 < d) :
    calculate_frequency_stats commits 0 = none ∧
    (d ≤ (commits.length : Int) →
      calculate_frequency_stats commits d =
        some (pyStr ("day"), pyRound1 ((commits.length : ℚ) / (d : ℚ)))) ∧
    ((commits.length : Int) < d → d ≤ 7 * (commits.length : Int) →
      calculate_frequency_stats commits d =
        some (pyStr ("week"), pyRound1 ((commits.length : ℚ) / (d : ℚ) * 7))) ∧
    (7 * (commits.length : Int) < d →
      calculate_frequency_stats commits d =
        some (pyStr ("month"), pyRound1 ((commits.length : ℚ) / (d : ℚ) * (30.44:ℚ)))) ∧
    calculate_frequency_stats c6ExampleCommits 30 = some (pyStr ("month"), 3) := by
  have hd' : (0:ℚ) < (d:ℚ) := by exact_mod_cast hd
  have hcond : ¬(commits = [] ∨ d = 0) := by
    push_neg
    exact ⟨hne, by omega⟩
  refine ⟨?_, ?_, ?_, ?_, ?_⟩
  · rw [calculate_frequency_stats_eq]
    simp
  · intro h
    have h1 : (1:ℚ) ≤ (commits.length : ℚ) / (d : ℚ) := by
      rw [one_le_div hd']
      exact_mod_cast h
    rw [calculate_frequency_stats_eq, if_neg hcond, if_pos h1]
  · intro ha hb
    have h1 : (commits.length : ℚ) / (d : ℚ) < 1 := by
      rw [div_lt_one hd']
      exact_mod_cast ha
    have h2 : (1:ℚ) ≤ (commits.length : ℚ) / (d : ℚ) * 7 := by
      rw [div_mul_eq_mul_div, one_le_div hd']
      have : (d:ℚ) ≤ (commits.length : ℚ) * 7 := by
        have hb' : (d:ℚ) ≤ 7 * (commits.length : ℚ) := by exact_mod_cast hb
        linarith
      exact this
    rw [calculate_frequency_stats_eq, if_neg hcond, if_neg (not_le.mpr h1), if_pos h2]
  · intro h
    have hlen : 0 < commits.length := List.length_pos.mpr hne
    have h1 : (commits.length : ℚ) / (d : ℚ) < 1 := by
      rw [div_lt_one hd']
      have : (commits.length : Int) < d := by omega
      exact_mod_cast this
    have h2 : (commits.length : ℚ) / (d : ℚ) * 7 < 1 := by
      rw [div_mul_eq_mul_div, div_lt_one hd']
      have : (commits.length : ℚ) * 7 < (d:ℚ) := by
        have h' : 7 * (commits.length : ℚ) < (d:ℚ) := by exact_mod_cast h
        linarith
      exact this
    rw [calculate_frequency_stats_eq, if_neg hcond, if_neg (not_le.mpr h1),
      if_neg (not_le.mpr h2)]
  · rw [calculate_frequency_stats_eq]
    rw [if_neg (by simp [c6ExampleCommits])]
    rw [show c6ExampleCommits.length = 3 from rfl]
    rw [if_neg (by norm_num), if_neg (by norm_num)]
    have hx : ((3:ℕ):ℚ) / ((30:ℤ):ℚ) * (30.44:ℚ) = 761/250 := by norm_num
    rw [hx]
    unfold pyRound1 roundHalfEven
    have hf : ⌊(10:ℚ) * (761/250)⌋ = 30 := by
      rw [Int.floor_eq_iff]
      norm_num
    rw [hf]
    norm_num

/-- Claim C6, counterexample to the claim as stated: one commit over 100
elapsed days is reported as `("month", 0.3)` — the code reports the month
unit even though no unit's rate is at least 1. -/
theorem c6_counterexample :
    calculate_frequency_stats [⟨pyStr ("e9"), pyStr ("solo"), pyStr ("2024-01-01"), [], 0, 0, 0⟩] 100 =
      some (pyStr ("month"), 3/10) ∧ (3:ℚ)/10 < 1 := by
  refine ⟨?_, by norm_num⟩
  rw [calculate_frequency_stats_eq]
  rw [if_neg (by simp)]
  rw [show ([⟨pyStr ("e9"), pyStr ("solo"), pyStr ("2024-01-01"), [], 0, 0, 0⟩] :
      List ParsedCommit).length = 1 from rfl]
  rw [if_neg (by norm_num), if_neg (by norm_num)]
  have hx : ((1:ℕ):ℚ) / ((100:ℤ):ℚ) * (30.44:ℚ) = 761/2500 := by norm_num
  rw [hx]
  unfold pyRound1 roundHalfEven
  have hf : ⌊(10:ℚ) * (761/2500)⌋ = 3 := by
    rw [Int.floor_eq_iff]
    norm_num
  rw [hf]
  norm_num

/-- Claim C6, witness: the day branch of the cascade at one commit over
one elapsed day. -/
theorem c6_witness :
    ([⟨pyStr ("w6"), pyStr ("solo"), pyStr ("2024-01-05"), [], 0, 0, 0⟩] : List ParsedCommit) ≠ [] ∧
    (0:Int) < 1 ∧
    (1:Int) ≤ (([⟨pyStr ("w6"), pyStr ("solo"), pyStr ("2024-01-05"), [], 0, 0, 0⟩] :
      List ParsedCommit).length : Int) ∧
    calculate_frequency_stats [⟨pyStr ("w6"), pyStr ("solo"), pyStr ("2024-01-05"), [], 0, 0, 0⟩] 1 =
      some (pyStr ("day"),
        pyRound1 ((([⟨pyStr ("w6"), pyStr ("solo"), pyStr ("2024-01-05"), [], 0, 0, 0⟩] :
          List ParsedCommit).length : ℚ) / ((1:Int) : ℚ))) :=
  ⟨by decide, by decide, by decide,
   (c6_frequency_cascade [⟨pyStr ("w6"), pyStr ("solo"), pyStr ("2024-01-05"), [], 0, 0, 0⟩] 1
     (by decide) (by decide)).2.1 (by decide)⟩

/-- Claim C3, counterexample to the claim as stated: on a history with 30
added and 10 deleted lines the code's non-pure COCOMO effort is
`2.4·(20/1000)^1.05` — based on `total_impact = Σ max(0, added−deleted)`,
here 20 — which is strictly below the effort the claim prescribes,
`2.4·((added+deleted)/1000)^1.05` with `added+deleted = 40`. -/
theorem c3_counterexample :
    total_added c3Commits = 30 ∧ total_deleted c3Commits = 10 ∧
    total_impact_sum c3Commits = 20 ∧
    (summaryCocomo c3Commits 50000 false).map CocomoStats.effort =
      some ((2.4:ℝ) * (((20:Int):ℝ)/1000) ^ (1.05:ℝ)) ∧
    (2.4:ℝ) * (((20:Int):ℝ)/1000) ^ (1.05:ℝ) <
      effortFromAddedPlusDeleted (total_added c3Commits) (total_deleted c3Commits) := by
  refine ⟨by decide, by decide, by decide, ?_, ?_⟩
  · unfold summaryCocomo
    rw [show total_added c3Commits = 30 from by decide,
      show total_deleted c3Commits = 10 from by decide,
      show total_impact_sum c3Commits = 20 from by decide,
      calculate_cocomo_stats_eq]
    have hT : (0:ℝ) < 2.5 * ((2.4:ℝ) * (((20:Int):ℝ)/1000) ^ (1.05:ℝ)) ^ (0.38:ℝ) :=
      mul_pos (by norm_num)
        (Real.rpow_pos_of_pos (mul_pos (by norm_num)
          (Real.rpow_pos_of_pos (by norm_num) _)) _)
    simp only [Bool.false_eq_true, if_false]
    rw [if_neg (ne_of_gt hT)]
    rfl
  · unfold effortFromAddedPlusDeleted
    rw [show total_added c3Commits = 30 from by decide,
      show total_deleted c3Commits = 10 from by decide]
    have h := Real.rpow_lt_rpow (x := ((20:Int):ℝ)/1000) (y := (((30:Int) + 10 : Int):ℝ)/1000)
      (z := (1.05:ℝ)) (by norm_num) (by norm_num) (by norm_num)
    nlinarith [h]

/-- Claim C3 (amended): for a positive line basis,
`calculate_cocomo_stats` returns `effort = 2.4·(KLOC)^1.05`,
`time = 2.5·effort^0.38`, `staff = effort/time` and
`cost = effort·(salary/12)`, where KLOC is basis/1000 and the basis is
`max(0, added − deleted)` when the pure flag is set and the caller's
`total_impact` otherwise — and the `total_impact` the report passes is the
sum over parsed commits of `max(0, added − deleted)`, not the aggregate
added-plus-deleted count. -/
theorem c3_cocomo_formula (added deleted total_impact : Int) (salary : ℝ) (p : Bool)
    (hpos : 0 < (if p then max 0 (added - deleted) else total_impact)) :
    (∃ s : CocomoStats,
      calculate_cocomo_stats added deleted salary p total_impact = some s ∧
      s.effort =
        2.4 * ((((if p then max 0 (added - deleted) else total_impact) : Int) : ℝ) / 1000) ^
          (1.05 : ℝ) ∧
      s.time = 2.5 * s.effort ^ (0.38 : ℝ) ∧
      s.staff = s.effort / s.time ∧
      s.cost = s.effort * (salary / 12)) ∧
    ∀ commits : List RawCommit,
      total_impact_sum commits =
        ((parsedCommits commits).map fun c => max 0 (c.added - c.deleted)).sum := by
  constructor
  · have hL : (0:ℝ) <
        (((if p then max 0 (added - deleted) else total_impact) : Int) : ℝ) / 1000 := by
      have h0 : (0:ℝ) < (((if p then max 0 (added - deleted) else total_impact) : Int) : ℝ) := by
        exact_mod_cast hpos
      linarith
    have hT : (0:ℝ) < 2.5 * ((2.4:ℝ) *
        ((((if p then max 0 (added - deleted) else total_impact) : Int) : ℝ) / 1000) ^
          (1.05:ℝ)) ^ (0.38:ℝ) :=
      mul_pos (by norm_num)
        (Real.rpow_pos_of_pos (mul_pos (by norm_num) (Real.rpow_pos_of_pos hL _)) _)
    rw [calculate_cocomo_stats_eq, if_neg (ne_of_gt hT)]
    exact ⟨_, rfl, rfl, rfl, rfl, rfl⟩
  · intro commits
    unfold total_impact_sum
    refine congrArg List.sum (List.map_congr_left ?_)
    intro x hx
    obtain ⟨rc, -, hrc⟩ := List.mem_filterMap.mp hx
    unfold parse_commit at hrc
    by_cases hm : (pyStr ("Merge branch")).isPrefixOf rc.subject
    · rw [if_pos hm] at hrc
      simp at hrc
    · rw [if_neg hm] at hrc
      simp only [Option.some.injEq] at hrc
      subst hrc
      rfl

/-- Claim C3, witness: the formula law evaluated on a concrete positive
basis (pure flag set, 1000 net added lines). -/
theorem c3_witness :
    (0 < (if true then max 0 ((1000:Int) - 0) else (0:Int))) ∧
    ((∃ s : CocomoStats,
      calculate_cocomo_stats 1000 0 50000 true 0 = some s ∧
      s.effort =
        2.4 * ((((if true then max 0 ((1000:Int) - 0) else (0:Int)) : Int) : ℝ) / 1000) ^
          (1.05 : ℝ) ∧
      s.time = 2.5 * s.effort ^ (0.38 : ℝ) ∧
      s.staff = s.effort / s.time ∧
      s.cost = s.effort * ((50000:ℝ) / 12)) ∧
    ∀ commits : List RawCommit,
      total_impact_sum commits =
        ((parsedCommits commits).map fun c => max 0 (c.added - c.deleted)).sum) :=
  ⟨by decide, c3_cocomo_formula 1000 0 0 50000 true (by decide)⟩

/-- Claim C4: with a zero line basis (zero `total_impact`, or the pure
flag set with added at most deleted) the code computes `effort = 0` and
`time = 0` and then raises `ZeroDivisionError` at `staff = effort / time`
(`0.0 / 0.0` raises on Python floats) instead of returning — modelled by
the `none` result. -/
theorem c4_cocomo_zero_division :
    calculate_cocomo_stats 0 0 50000 false 0 = none ∧
    calculate_cocomo_stats 5 9 50000 true 0 = none := by
  constructor
  · rw [calculate_cocomo_stats_eq]
    norm_num [Real.zero_rpow]
  · rw [calculate_cocomo_stats_eq]
    rw [show (max 0 ((5:Int) - 9)) = 0 from by decide]
    norm_num [Real.zero_rpow]

/-- Claim C9 (amended): a missing VCS tool is fatal — the
`FileNotFoundError` of the spawn propagates out of `get_user_commits`
unhandled, terminating the run with no retry and no partial report — but a
non-zero exit status of a completed process is not an error: the exit code
is never inspected (the result depends only on the captured standard
output), and empty output is treated as no commits. -/
theorem c9_exit_status_ignored :
    get_user_commits (.error ()) = .error .toolMissing ∧
    (∀ (code code' : Int) (out : PyStr),
      get_user_commits (.ok ⟨code, out⟩) = get_user_commits (.ok ⟨code', out⟩)) ∧
    (∀ code : Int, get_user_commits (.ok ⟨code, pyStr ("")⟩) = .ok ([], [])) :=
  ⟨rfl, fun _ _ _ => rfl, fun _ => rfl⟩

/-- Claim C9, counterexample to the claim as stated: a run whose process
exits with status 1 is not fatal — `get_user_commits` consumes the output
and returns the parsed commit normally. -/
theorem c9_counterexample :
    get_user_commits (.ok ⟨1, pyStr ("h9<sep>add colors<sep>2024-06-06<sep>dave@x")⟩) =
      .ok ([⟨pyStr ("h9"), pyStr ("add colors"), pyStr ("2024-06-06"), []⟩], [pyStr ("dave@x")]) ∧
    (1:Int) ≠ 0 := by
  exact ⟨by decide, by decide⟩
